import Mathlib

/-!
Shallow embedding of `src/bin/launch-space.rs` (repository `launch-games`).

Modelling conventions:
- `f64` values are modelled as `ℚ`; `x.floor() as i32` is modelled as `Rat.floor`
  (the program only ever works with coordinates far inside the `i32` range).
- `u8` color components and `usize` indices are modelled as `ℕ`; `i32` pixel
  coordinates as `ℤ`.
- The fallible hardware call `ec.led_set_color(..)` is modelled by a boolean
  parameter `writeOk` giving the outcome of the write; the source ignores this
  outcome except for printing it.
- Rust `Vec` is modelled as `List`; in-place mutation as explicit state passing.
-/

set_option maxRecDepth 8000
set_option linter.unusedVariables false

namespace LaunchSpace

/-- `struct Entity { x: f64, y: f64, dx: f64, dy: f64, r: u8, g: u8, b: u8 }` -/
structure Entity where
  x : ℚ
  y : ℚ
  dx : ℚ
  dy : ℚ
  r : ℕ
  g : ℕ
  b : ℕ
deriving DecidableEq, Repr

instance : Inhabited Entity := ⟨⟨0, 0, 0, 0, 0, 0, 0⟩⟩

/-- `fn pixel_position(&self) -> (i32, i32) { (self.x.floor() as i32, self.y.floor() as i32) }` -/
def Entity.pixel_position (e : Entity) : ℤ × ℤ :=
  (e.x.floor, e.y.floor)

/-- `fn update(&mut self, dt: f64) { self.x += self.dx * dt; self.y += self.dy * dt; }` -/
def Entity.update (e : Entity) (dt : ℚ) : Entity :=
  { e with x := e.x + e.dx * dt, y := e.y + e.dy * dt }

/-- `struct Led { i: u8, color: (u8, u8, u8), sync_color: Option<(u8, u8, u8)> }` -/
structure Led where
  i : ℕ
  color : ℕ × ℕ × ℕ
  sync_color : Option (ℕ × ℕ × ℕ)
deriving DecidableEq, Repr

/-- `fn set_color(&mut self, r: u8, g: u8, b: u8) { self.color = (r, g, b); }` -/
def Led.set_color (led : Led) (r g b : ℕ) : Led :=
  { led with color := (r, g, b) }

/-- `fn sync(&mut self, ec: &mut Ec<..>)`:
```
if self.sync_color != Some(self.color) {
    println!(.. ec.led_set_color(self.i, ..) ..);
    self.sync_color = Some(self.color);
}
```
The hardware call happens inside the `println!` arguments and its `Result` is
only printed, never inspected: `sync_color` is assigned unconditionally once
the branch is taken. `writeOk` records the outcome of the hardware write; the
returned boolean records whether a write was issued. -/
def Led.sync (led : Led) (writeOk : Bool) : Led × Bool :=
  if led.sync_color ≠ some led.color then
    ({ led with sync_color := some led.color }, true)
  else
    (led, false)

/-- One reconcile step per tick for a single cell: the renderer first assigns
the frame's desired color (`set_color`), then `sync` runs with the given write
outcome.  `syncTicks` runs one such step per element of `oks` with the same
desired color `c` every tick, returning the final cell and the number of
hardware writes issued. -/
def syncTicks (led : Led) (c : ℕ × ℕ × ℕ) : List Bool → Led × ℕ
  | [] => (led, 0)
  | ok :: oks =>
    let s := ({ led with color := c }).sync ok
    let rest := syncTicks s.1 c oks
    (rest.1, (if s.2 then 1 else 0) + rest.2)

/-- Run a sequence of reconcile steps, each with its own desired color and
write outcome. -/
def runSyncs (led : Led) : List ((ℕ × ℕ × ℕ) × Bool) → Led
  | [] => led
  | (c, ok) :: rest => runSyncs (({ led with color := c }).sync ok).1 rest

/-! ### Grid layout construction (`main`, lines 122-161) -/

/-- `let ni = 0xFF;` — the sentinel marking an absent LED. -/
def ni : ℕ := 0xFF

/-- The fixed compiled layout table `indices` (lines 123-130). -/
def indicesTable : List (List ℕ) :=
  [[69, 70, 71, 72, 73, 74, 75, 76, 77, 78, 79, 80, 81, 82, 83],
   [68, 67, 66, 65, 64, 63, 62, 61, 60, 59, 58, 57, 56, 55, 54],
   [39, 40, 41, 42, 43, 44, 45, 46, 47, 48, 49, 50, 51, 52, 53],
   [38, 37, 36, 35, 34, 33, 32, 31, 30, 29, 28, 27, 26, ni, 25],
   [12, 11, 10, 09, 08, 07, 06, 05, 04, 03, 02, 01, 00, ni, ni],
   [13, 14, 15, 16, 17, ni, 18, 19, 20, 21, ni, 22, 23, 24, ni]]

/-- Per-row construction (lines 148-159): `ni` becomes `None`, any other index
becomes `Some(Led { i: index, color: (0,0,0), sync_color: None })`. -/
def buildLedsRow (indices_row : List ℕ) : List (Option Led) :=
  indices_row.map fun index =>
    if index = ni then none
    else some { i := index, color := (0, 0, 0), sync_color := none }

/-- The whole `leds` grid built from a table (lines 142-161).  Construction is
total: it performs no validation of any kind. -/
def buildLeds (indices : List (List ℕ)) : List (List (Option Led)) :=
  indices.map buildLedsRow

/-- `max_col` computation (lines 141-146):
`if indices_row.len() > max_col { max_col = indices_row.len() }` over all rows,
starting from 0. -/
def maxColOf (indices : List (List ℕ)) : ℕ :=
  indices.foldl (fun max_col indices_row =>
    if indices_row.length > max_col then indices_row.length else max_col) 0

/-- Modelled from the spec (§4.1, §7): construction "validates no duplicate
non-absent indices (fails construction otherwise — a configuration error,
fatal at startup)".  The source contains no such check; this definition
follows the spec's words so that it can be compared with `buildLeds`, the
construction actually present in the source. -/
def buildLedsChecked (indices : List (List ℕ)) : Option (List (List (Option Led))) :=
  if ((indices.flatten).filter (fun index => decide (index ≠ ni))).Nodup then
    some (buildLeds indices)
  else
    none

/-! ### The per-tick simulation steps (`main`, `Event::MainEventsCleared`) -/

/-- An explosion `(i32, i32, f64)`: center x, center y, age. -/
abbrev Explosion := ℤ × ℤ × ℚ

/-- Lines 239-243: `for explosion in explosions.iter_mut() { explosion.2 += dt; }`
then `explosions.retain(|explosion| explosion.2 < 2.0);`. -/
def ageExplosions (dt : ℚ) (explosions : List Explosion) : List Explosion :=
  ((explosions.map fun explosion => (explosion.1, explosion.2.1, explosion.2.2 + dt)).filter
    fun explosion => decide (explosion.2.2 < 2))

/-- In-place update of one element of a list, as done by `entities[k].x = -1.0`. -/
def listModify (f : α → α) : ℕ → List α → List α
  | _, [] => []
  | 0, a :: as => f a :: as
  | k + 1, a :: as => a :: listModify f k as

/-- `entities[k].x = -1.0;` -/
def markShot (entities : List Entity) (k : ℕ) : List Entity :=
  listModify (fun entity => { entity with x := -1 }) k entities

/-- The inner collision loop (lines 250-258) for a fixed outer index `i`:
```
let a = entities[i].pixel_position();
for j in i + 1..entities.len() {
    let b = entities[j].pixel_position();
    if a == b {
        entities[i].x = -1.0;
        entities[j].x = -1.0;
        explosions.push((a.0, a.1, 0.0));
    }
}
```
`a` is read once, before the inner loop, from the current (possibly already
marked) state of `entities[i]`; `b` is re-read from the current state at each
`j`. -/
def collideInner (n i : ℕ) (st : List Entity × List Explosion) :
    List Entity × List Explosion :=
  let a := (st.1.getD i default).pixel_position
  (List.range' (i + 1) (n - (i + 1))).foldl
    (fun st j =>
      if a = (st.1.getD j default).pixel_position then
        (markShot (markShot st.1 i) j, st.2 ++ [(a.1, a.2, 0)])
      else st)
    st

/-- The full collision pass (lines 249-259): `for i in 0..entities.len()`
running `collideInner` for each `i`.  The length of the entity list is fixed
throughout the pass (only the `x` fields are mutated). -/
def collidePass (st : List Entity × List Explosion) : List Entity × List Explosion :=
  let n := st.1.length
  (List.range n).foldl (fun st i => collideInner n i st) st

/-- Lines 261-264:
```
entities.retain(|entity| {
    let pixel = entity.pixel_position();
    pixel.0 >= 0 && pixel.0 < max_col as i32
});
``` -/
def offGridRetain (max_col : ℕ) (entities : List Entity) : List Entity :=
  entities.filter fun entity =>
    decide (entity.pixel_position.1 ≥ 0 ∧ entity.pixel_position.1 < (max_col : ℤ))

/-! ### Player movement (`main`, keyboard handling, lines 196-231) -/

/-- The directional/fire inputs the key handler reacts to. -/
inductive Input
  | up
  | down
  | left
  | right
  | fire
deriving DecidableEq, Repr

/-- `usize::saturating_add`, modelled with the 64-bit `usize` bound. -/
def usizeSatAdd (a b : ℕ) : ℕ := min (a + b) (2 ^ 64 - 1)

/-- `usize::saturating_sub` (truncated subtraction on `ℕ`). -/
def usizeSatSub (a b : ℕ) : ℕ := a - b

/-- The candidate `new_player` (lines 197-223).  A player position is a pair
`(column, row)`, matching the source's `player.0` / `player.1`. -/
def newPlayerOf (keycode : Input) (player : ℕ × ℕ) : ℕ × ℕ :=
  match keycode with
  | .up => (player.1, usizeSatSub player.2 1)
  | .down => (player.1, usizeSatAdd player.2 1)
  | .left => (usizeSatSub player.1 1, player.2)
  | .right => (usizeSatAdd player.1 1, player.2)
  | .fire => player

/-- Lines 224-230: the destination is accepted only when
`leds.get(new_player.1)` and `leds_row.get(new_player.0)` both succeed and the
cell holds `Some` LED. -/
def cellPresent (leds : List (List (Option Led))) (p : ℕ × ℕ) : Bool :=
  match leds.get? p.2 with
  | some leds_row =>
    match leds_row.get? p.1 with
    | some led_opt => led_opt.isSome
    | none => false
  | none => false

/-- One key press: compute `new_player`, accept it iff it lands on a present
cell. -/
def movePlayer (leds : List (List (Option Led))) (keycode : Input) (player : ℕ × ℕ) :
    ℕ × ℕ :=
  if cellPresent leds (newPlayerOf keycode player) then newPlayerOf keycode player
  else player

/-- A sequence of key presses processed in order. -/
def movePlayers (leds : List (List (Option Led))) (inputs : List Input) (player : ℕ × ℕ) :
    ℕ × ℕ :=
  inputs.foldl (fun player keycode => movePlayer leds keycode player) player

/-- `VirtualKeyCode::Space` (lines 211-221): push a new entity at the player's
cell moving right at fixed speed with the fixed "fired" color. -/
def fireEntity (player : ℕ × ℕ) : Entity :=
  { x := (player.1 : ℚ), y := (player.2 : ℚ), dx := 8, dy := 0,
    r := 0xFF, g := 0x00, b := 0x00 }

/-! ### Entity rendering (`Event::RedrawRequested`, lines 299-308) -/

/-- Rust's `as usize` on an `i32` value: sign extension, i.e. reduction mod
`2^64`. -/
def usizeOfI32 (n : ℤ) : ℕ := (n % (2 : ℤ) ^ 64).toNat

/-- Lines 299-308: look the entity's pixel position up in the grid with
bounds-checked `get_mut` (after `as usize` casts) and, if the cell exists and
is present, set its color to the entity's color; otherwise do nothing. -/
def renderEntity (leds : List (List (Option Led))) (entity : Entity) :
    List (List (Option Led)) :=
  let pixel := entity.pixel_position
  match leds.get? (usizeOfI32 pixel.2) with
  | some leds_row =>
    match leds_row.get? (usizeOfI32 pixel.1) with
    | some (some led) =>
      leds.set (usizeOfI32 pixel.2)
        (leds_row.set (usizeOfI32 pixel.1) (some (led.set_color entity.r entity.g entity.b)))
    | _ => leds
  | none => leds

/-! ### Helper lemmas -/

/-- `Rat.floor` agrees with the mathematical floor `⌊·⌋` on `ℚ`. -/
theorem ratFloor_eq_intFloor (q : ℚ) : q.floor = ⌊q⌋ :=
  (Rat.floor_def' q).trans Rat.floor_def.symm

/-- After any reconcile step, successful or not, `sync_color` equals the color
that was current when the step ran. -/
theorem sync_sets_attempted (led : Led) (ok : Bool) :
    ((led.sync ok).1).sync_color = some led.color := by
  by_cases h : led.sync_color = some led.color
  · simp [Led.sync, h]
  · simp [Led.sync, h]

/-- A cell whose `sync_color` already equals the constant desired color never
writes again. -/
theorem syncTicks_zero_writes :
    ∀ (oks : List Bool) (led : Led) (c : ℕ × ℕ × ℕ),
      led.sync_color = some c → (syncTicks led c oks).2 = 0
  | [], _, _, _ => rfl
  | ok :: oks, led, c, h => by
    have hsync : ({ led with color := c } : Led).sync ok = ({ led with color := c }, false) := by
      simp [Led.sync, h]
    simp only [syncTicks, hsync]
    simpa using syncTicks_zero_writes oks { led with color := c } c h

/-- After a non-empty run of reconcile steps, `sync_color` is the color of the
last step, whatever the write outcomes were. -/
theorem runSyncs_getLast :
    ∀ (steps : List ((ℕ × ℕ × ℕ) × Bool)) (led : Led) (c : ℕ × ℕ × ℕ) (ok : Bool),
      steps.getLast? = some (c, ok) → (runSyncs led steps).sync_color = some c
  | [], _, _, _, h => by simp at h
  | (c', ok') :: rest, led, c, ok, h => by
    cases rest with
    | nil =>
      simp only [List.getLast?_singleton, Option.some.injEq, Prod.mk.injEq] at h
      obtain ⟨h1, h2⟩ := h
      show ((({ led with color := c' } : Led)).sync ok').1.sync_color = some c
      rw [← h1]
      exact sync_sets_attempted { led with color := c' } ok'
    | cons s rest' =>
      rw [List.getLast?_cons_cons] at h
      exact runSyncs_getLast (s :: rest') _ c ok h

/-! ### Claims -/

/-- Claim C8: applying `Entity::update` with `dt = 0` leaves the entity's
position `(x, y)` unchanged — a zero-time step is the identity on position. -/
theorem update_zero_dt_identity :
    ∀ e : Entity, (e.update 0).x = e.x ∧ (e.update 0).y = e.y := by
  intro e
  constructor <;> simp [Entity.update]

/-- Claim C4: `Led::sync` issues a hardware write iff the desired color differs
from `sync_color`; on a successful write it sets `sync_color` to the desired
color; and over any non-empty run of ticks with one constant desired color a
cell that does not already hold that confirmed color writes exactly once. -/
theorem sync_writes_iff_dirty :
    ∀ (led : Led) (ok : Bool),
      ((led.sync ok).2 = true ↔ led.sync_color ≠ some led.color) ∧
      (ok = true → (led.sync ok).2 = true → ((led.sync ok).1).sync_color = some led.color) ∧
      (∀ (c : ℕ × ℕ × ℕ) (oks : List Bool),
        led.sync_color ≠ some c → oks ≠ [] → (syncTicks led c oks).2 = 1) := by
  intro led ok
  refine ⟨?_, ?_, ?_⟩
  · by_cases h : led.sync_color = some led.color
    · simp [Led.sync, h]
    · simp [Led.sync, h]
  · intro _ _
    exact sync_sets_attempted led ok
  · intro c oks hne hoks
    cases oks with
    | nil => exact absurd rfl hoks
    | cons ok1 oks1 =>
      have hsync : ({ led with color := c } : Led).sync ok1 =
          ({ led with color := c, sync_color := some c }, true) := by
        simp [Led.sync, hne]
      simp only [syncTicks, hsync]
      simpa using syncTicks_zero_writes oks1 { led with color := c, sync_color := some c } c rfl

/-- Claim C4, witness: a fresh cell writes once when the desired color first
appears and never again while the color stays the same, failures included. -/
theorem sync_writes_iff_dirty_witness :
    ((({ i := 5, color := (1, 1, 1), sync_color := none } : Led)).sync true).1.sync_color
        = some (1, 1, 1) ∧
    (syncTicks { i := 5, color := (1, 1, 1), sync_color := none } (9, 9, 9)
        [false, true, false]).2 = 1 :=
  ⟨(sync_writes_iff_dirty { i := 5, color := (1, 1, 1), sync_color := none } true).2.1
      rfl (by decide),
   (sync_writes_iff_dirty { i := 5, color := (1, 1, 1), sync_color := none } true).2.2
      (9, 9, 9) [false, true, false] (by decide) (by decide)⟩

/-- Claim C1, counterexample: a failed hardware write does not leave
`sync_color` unchanged — the source assigns `sync_color` unconditionally once
the colors differ, and the write's `Result` is only printed.  Here a cell with
`sync_color = None` ends with `sync_color = Some((1,2,3))` although the write
failed. -/
theorem failed_write_still_updates_sync_color :
    ((({ i := 0, color := (1, 2, 3), sync_color := none } : Led)).sync false).1.sync_color
      ≠ ({ i := 0, color := (1, 2, 3), sync_color := none } : Led).sync_color := by
  decide

/-- Claim C1 (amended): after a reconcile step in which the hardware write
fails, `sync_color` is nevertheless set to the color just attempted;
`sync_color` is `None` until the first write attempt and thereafter always
equals the color most recently attempted (sent to hardware), whether or not
that write succeeded. -/
theorem sync_color_follows_attempted_writes :
    (∀ (led : Led) (ok : Bool), ((led.sync ok).1).sync_color = some led.color) ∧
    (∀ (led : Led) (steps : List ((ℕ × ℕ × ℕ) × Bool)) (c : ℕ × ℕ × ℕ) (ok : Bool),
      steps.getLast? = some (c, ok) → (runSyncs led steps).sync_color = some c) :=
  ⟨sync_sets_attempted, fun led steps c ok h => runSyncs_getLast steps led c ok h⟩

/-- Claim C1, witness: a run consisting of one failed write on a fresh cell
ends with `sync_color` equal to the attempted color. -/
theorem sync_color_follows_attempted_writes_witness :
    (runSyncs { i := 0, color := (0, 0, 0), sync_color := none }
        [((1, 2, 3), false)]).sync_color = some (1, 2, 3) :=
  sync_color_follows_attempted_writes.2 { i := 0, color := (0, 0, 0), sync_color := none }
    [((1, 2, 3), false)] (1, 2, 3) false rfl

/-- Claim C2, counterexample: a table with a duplicated non-absent physical
index is accepted by the source's construction, which builds both cells and
performs no validation; the spec-modelled checked construction rejects the
same table. -/
theorem duplicate_indices_accepted :
    buildLeds [[1, 1]] =
      [[some { i := 1, color := (0, 0, 0), sync_color := none },
        some { i := 1, color := (0, 0, 0), sync_color := none }]] ∧
    buildLedsChecked [[1, 1]] = none := by
  constructor
  · rfl
  · decide

/-- Claim C2 (amended): grid construction performs no duplicate-index
validation and cannot fail — any table, duplicates included, produces a grid
with one row per table row.  The fixed compiled table happens to contain no
duplicate non-absent indices, so the spec-modelled checked construction
accepts it and agrees with the source's construction on it. -/
theorem layout_construction_unvalidated :
    buildLedsChecked indicesTable = some (buildLeds indicesTable) ∧
    (∀ indices : List (List ℕ), (buildLeds indices).length = indices.length) ∧
    ((indicesTable.flatten).filter (fun index => decide (index ≠ ni))).Nodup := by
  refine ⟨by decide, ?_, by decide⟩
  intro indices
  simp [buildLeds]

/-- Claim C5: after the position update, the retain step keeps an entity iff
its pixel column lies in `[0, max_col)`; in particular an entity at column
`max_col` is removed and one at `max_col - 1` is retained. -/
theorem offgrid_removal_column_bounds :
    ∀ (max_col : ℕ) (entities : List Entity) (e : Entity),
      (e ∈ offGridRetain max_col entities ↔
        e ∈ entities ∧ (0 ≤ e.pixel_position.1 ∧ e.pixel_position.1 < (max_col : ℤ))) ∧
      (e.pixel_position.1 = (max_col : ℤ) → e ∉ offGridRetain max_col entities) ∧
      (e ∈ entities → e.pixel_position.1 = (max_col : ℤ) - 1 → 1 ≤ max_col →
        e ∈ offGridRetain max_col entities) := by
  intro m es e
  have hiff : e ∈ offGridRetain m es ↔
      e ∈ es ∧ (0 ≤ e.pixel_position.1 ∧ e.pixel_position.1 < (m : ℤ)) := by
    simp [offGridRetain, List.mem_filter, ge_iff_le]
  refine ⟨hiff, ?_, ?_⟩
  · intro hpx hmem
    rcases hiff.1 hmem with ⟨-, -, hlt⟩
    omega
  · intro hmem hpx hm
    refine hiff.2 ⟨hmem, ?_, ?_⟩ <;> omega

/-- Claim C5, witness: with `max_col = 15`, an entity at pixel column 14 is
retained and one at pixel column 15 is removed. -/
theorem offgrid_removal_column_bounds_witness :
    ({ x := 14, y := 2, dx := 0, dy := 0, r := 0, g := 0, b := 0 } : Entity) ∈
      offGridRetain 15 [{ x := 14, y := 2, dx := 0, dy := 0, r := 0, g := 0, b := 0 }] ∧
    ({ x := 15, y := 2, dx := 0, dy := 0, r := 0, g := 0, b := 0 } : Entity) ∉
      offGridRetain 15 [{ x := 15, y := 2, dx := 0, dy := 0, r := 0, g := 0, b := 0 }] :=
  ⟨(offgrid_removal_column_bounds 15 _
      { x := 14, y := 2, dx := 0, dy := 0, r := 0, g := 0, b := 0 }).2.2
      (by decide) (by decide) (by decide),
   (offgrid_removal_column_bounds 15 _
      { x := 15, y := 2, dx := 0, dy := 0, r := 0, g := 0, b := 0 }).2.1
      (by decide)⟩

/-- Claim C6: each tick every explosion's age grows by `dt` and the retain step
then keeps exactly the aged explosions with age strictly below `2.0`: an aged
member below `2.0` is retained, and every member of the result is below
`2.0`. -/
theorem explosion_aging_and_removal :
    ∀ (dt : ℚ) (explosions : List Explosion) (x y : ℤ) (a : ℚ),
      ((x, y, a) ∈ explosions → a + dt < 2 →
        (x, y, a + dt) ∈ ageExplosions dt explosions) ∧
      (∀ b : ℚ, (x, y, b) ∈ ageExplosions dt explosions → b < 2) := by
  intro dt exps x y a
  constructor
  · intro hmem hlt
    refine List.mem_filter.2 ⟨List.mem_map.2 ⟨(x, y, a), hmem, rfl⟩, ?_⟩
    exact decide_eq_true hlt
  · intro b hmem
    exact of_decide_eq_true (List.mem_filter.1 hmem).2

/-- Claim C6, witness: with `dt = 1`, an explosion of age 0 survives the aging
step with age 1. -/
theorem explosion_aging_and_removal_witness :
    ((0 : ℤ), (0 : ℤ), (0 : ℚ) + 1) ∈ ageExplosions 1 [(0, 0, 0)] :=
  (explosion_aging_and_removal 1 [(0, 0, 0)] 0 0 0).1 (by decide) (by norm_num)

/-- One accepted or rejected move keeps the player on a present cell. -/
theorem movePlayer_present (leds : List (List (Option Led))) (keycode : Input) (p : ℕ × ℕ)
    (hp : cellPresent leds p = true) :
    cellPresent leds (movePlayer leds keycode p) = true := by
  rw [movePlayer]
  cases h : cellPresent leds (newPlayerOf keycode p) with
  | false => simp [h, hp]
  | true => simp [h]

/-- Any sequence of key presses keeps the player on a present cell. -/
theorem movePlayers_present (leds : List (List (Option Led))) (inputs : List Input) :
    ∀ p : ℕ × ℕ, cellPresent leds p = true →
      cellPresent leds (movePlayers leds inputs p) = true := by
  induction inputs with
  | nil => intro p hp; exact hp
  | cons k ks ih => intro p hp; exact ih _ (movePlayer_present leds k p hp)

/-- Claim C7: a key press moves the player one step only when the destination
is an in-bounds present cell; a move onto an absent or out-of-bounds cell is
rejected and leaves the position unchanged, so a player starting on a present
cell is on a present cell after any sequence of inputs. -/
theorem player_move_present_cells_only :
    ∀ (leds : List (List (Option Led))) (keycode : Input) (p : ℕ × ℕ),
      (cellPresent leds (newPlayerOf keycode p) = false → movePlayer leds keycode p = p) ∧
      (movePlayer leds keycode p = p ∨
        (movePlayer leds keycode p = newPlayerOf keycode p ∧
          cellPresent leds (movePlayer leds keycode p) = true)) ∧
      (∀ inputs : List Input, cellPresent leds p = true →
        cellPresent leds (movePlayers leds inputs p) = true) := by
  intro leds k p
  refine ⟨?_, ?_, fun inputs hp => movePlayers_present leds inputs p hp⟩
  · intro h
    simp [movePlayer, h]
  · cases h : cellPresent leds (newPlayerOf k p) with
    | false =>
      left
      simp [movePlayer, h]
    | true =>
      right
      constructor
      · simp [movePlayer, h]
      · simp [movePlayer, h]

/-- The pin-scenario grid `[[0, absent, 1]]` from the spec (§8). -/
def pinGrid : List (List (Option Led)) := buildLeds [[0, ni, 1]]

/-- Claim C7, witness: on `pinGrid`, `Right` from `(0,0)` is rejected (column 1
is absent), and any input sequence keeps the player on a present cell. -/
theorem player_move_present_cells_only_witness :
    movePlayer pinGrid .right (0, 0) = (0, 0) ∧
    cellPresent pinGrid
      (movePlayers pinGrid [.right, .right, .down] (0, 0)) = true :=
  ⟨(player_move_present_cells_only pinGrid .right (0, 0)).1 (by decide),
   (player_move_present_cells_only pinGrid .right (0, 0)).2.2
      [.right, .right, .down] (by decide)⟩

/-- The collision pass on exactly two entities sharing a pixel position: both
are marked with `x = -1.0` and one explosion of age 0 is pushed at the shared
pixel. -/
theorem collidePass_pair (e1 e2 : Entity) (exps : List Explosion)
    (h : e1.pixel_position = e2.pixel_position) :
    collidePass ([e1, e2], exps) =
      ([{ e1 with x := -1 }, { e2 with x := -1 }],
        exps ++ [(e1.pixel_position.1, e1.pixel_position.2, 0)]) := by
  have hinner0 : collideInner 2 0 ([e1, e2], exps) =
      ([{ e1 with x := -1 }, { e2 with x := -1 }],
        exps ++ [(e1.pixel_position.1, e1.pixel_position.2, 0)]) := by
    show (if e1.pixel_position = e2.pixel_position then
            ([{ e1 with x := -1 }, { e2 with x := -1 }],
              exps ++ [(e1.pixel_position.1, e1.pixel_position.2, 0)])
          else ([e1, e2], exps)) = _
    rw [if_pos h]
  calc collidePass ([e1, e2], exps)
      = collideInner 2 1 (collideInner 2 0 ([e1, e2], exps)) := rfl
    _ = collideInner 2 1
          ([{ e1 with x := -1 }, { e2 with x := -1 }],
            exps ++ [(e1.pixel_position.1, e1.pixel_position.2, 0)]) := by rw [hinner0]
    _ = ([{ e1 with x := -1 }, { e2 with x := -1 }],
          exps ++ [(e1.pixel_position.1, e1.pixel_position.2, 0)]) := rfl

/-- The collision pass on exactly two entities with distinct pixel positions
changes nothing. -/
theorem collidePass_pair_ne (e1 e2 : Entity) (exps : List Explosion)
    (h : e1.pixel_position ≠ e2.pixel_position) :
    collidePass ([e1, e2], exps) = ([e1, e2], exps) := by
  have hinner0 : collideInner 2 0 ([e1, e2], exps) = ([e1, e2], exps) := by
    show (if e1.pixel_position = e2.pixel_position then
            (markShot (markShot [e1, e2] 0) 1,
              exps ++ [(e1.pixel_position.1, e1.pixel_position.2, 0)])
          else ([e1, e2], exps)) = _
    rw [if_neg h]
  calc collidePass ([e1, e2], exps)
      = collideInner 2 1 (collideInner 2 0 ([e1, e2], exps)) := rfl
    _ = collideInner 2 1 ([e1, e2], exps) := by rw [hinner0]
    _ = ([e1, e2], exps) := rfl

/-- Claim C3 (amended): when exactly two entities collide (the active list
holds just this pair and their pixel positions coincide), exactly one
explosion with age 0 is created at the shared pixel and both entities are
subsequently removed by the retain step; a pair on distinct pixels is left
untouched.  (In a simultaneous multi-way collision the marking `x = -1.0`
corrupts later comparisons of the same pass, so not every pairwise explosion
is created at the shared cell — see the counterexample.) -/
theorem pair_collision_explosion :
    ∀ (e1 e2 : Entity) (exps : List Explosion) (max_col : ℕ),
      (e1.pixel_position = e2.pixel_position →
        collidePass ([e1, e2], exps) =
          ([{ e1 with x := -1 }, { e2 with x := -1 }],
            exps ++ [(e1.pixel_position.1, e1.pixel_position.2, 0)]) ∧
        offGridRetain max_col (collidePass ([e1, e2], exps)).1 = []) ∧
      (e1.pixel_position ≠ e2.pixel_position →
        collidePass ([e1, e2], exps) = ([e1, e2], exps)) := by
  intro e1 e2 exps m
  constructor
  · intro h
    refine ⟨collidePass_pair e1 e2 exps h, ?_⟩
    rw [collidePass_pair e1 e2 exps h]
    rfl
  · exact collidePass_pair_ne e1 e2 exps

/-- A colliding pair for the C3 witness. -/
def entA : Entity := { x := 5, y := 2, dx := -2, dy := 0, r := 0, g := 0, b := 0xFF }

/-- A second entity on the same pixel `(5, 2)`. -/
def entB : Entity := { x := 5, y := 2, dx := 8, dy := 0, r := 0xFF, g := 0, b := 0 }

/-- Claim C3, witness: the pair `entA`, `entB` shares pixel `(5, 2)`; the pass
yields exactly one explosion there and the retain step then removes both. -/
theorem pair_collision_explosion_witness :
    (collidePass ([entA, entB], []) =
      ([{ entA with x := -1 }, { entB with x := -1 }],
        [] ++ [(entA.pixel_position.1, entA.pixel_position.2, 0)]) ∧
      offGridRetain 15 (collidePass ([entA, entB], [])).1 = []) :=
  (pair_collision_explosion entA entB [] 15).1 (by decide)

/-- Claim C3, counterexample: three entities all on pixel `(5, 2)` after the
update.  The claim demands one explosion per pairwise match, each at the
shared cell `(5, 2)`; the pass instead produces two explosions at `(5, 2)` and
a third at `(-1, 2)`, because the marking `entities[i].x = -1.0` of the first
match changes the pixel positions used by the later comparisons. -/
theorem triple_collision_misplaced_explosion :
    (collidePass ([entA, entA, entA], [])).2 =
      [(5, 2, 0), (5, 2, 0), (-1, 2, 0)] ∧
    ((-1 : ℤ), (2 : ℤ)) ≠ ((5 : ℤ), (2 : ℤ)) := by
  constructor
  · decide
  · decide

/-- Claim C9 (amended): a `Fire` input leaves the player position unchanged,
so two `Fire` inputs between the same pair of ticks push two identical
entities at the player's cell; after the next update their pixel positions
are necessarily equal, the collision pass removes both and spawns exactly one
explosion at their shared pixel `(⌊player.0 + 8·dt⌋, player.1)` — which equals
the player's own pixel position iff `0 ≤ 8·dt < 1`. -/
theorem double_fire_collision :
    ∀ (leds : List (List (Option Led))) (p : ℕ × ℕ) (dt : ℚ) (max_col : ℕ),
      movePlayer leds .fire p = p ∧
      collidePass ([(fireEntity p).update dt, (fireEntity p).update dt], []) =
        ([{ (fireEntity p).update dt with x := -1 },
          { (fireEntity p).update dt with x := -1 }],
          [(((p.1 : ℚ) + 8 * dt).floor, (p.2 : ℤ), 0)]) ∧
      offGridRetain max_col
        (collidePass ([(fireEntity p).update dt, (fireEntity p).update dt], [])).1 = [] ∧
      ((((p.1 : ℚ) + 8 * dt).floor = (p.1 : ℤ)) ↔ (0 ≤ 8 * dt ∧ 8 * dt < 1)) := by
  intro leds p dt m
  have hpair :=
    collidePass_pair ((fireEntity p).update dt) ((fireEntity p).update dt) [] rfl
  have hpx1 : ((fireEntity p).update dt).pixel_position.1 = ((p.1 : ℚ) + 8 * dt).floor := rfl
  have hpx2 : ((fireEntity p).update dt).pixel_position.2 = (p.2 : ℤ) := by
    show ((p.2 : ℚ) + 0 * dt).floor = (p.2 : ℤ)
    rw [zero_mul, add_zero, ratFloor_eq_intFloor, Int.floor_natCast]
  refine ⟨?_, ?_, ?_, ?_⟩
  · simp [movePlayer, newPlayerOf]
  · rw [hpair]
    simp only [List.nil_append, hpx1, hpx2]
  · rw [hpair]
    rfl
  · rw [ratFloor_eq_intFloor, Int.floor_eq_iff]
    push_cast
    constructor
    · rintro ⟨h1, h2⟩
      exact ⟨by linarith, by linarith⟩
    · rintro ⟨h1, h2⟩
      exact ⟨by linarith, by linarith⟩

/-- Claim C9, counterexample: with the player at `(2, 2)` and `dt = 1/4`, the
two fired entities advance to `x = 4` before the collision pass runs, so the
explosion is created at `(4, 2)`, not at the player's pixel position
`(2, 2)`. -/
theorem double_fire_explosion_not_at_player :
    (collidePass
        ([(fireEntity (2, 2)).update (1 / 4), (fireEntity (2, 2)).update (1 / 4)], [])).2 =
      [(4, 2, 0)] ∧
    ((4 : ℤ), (2 : ℤ)) ≠ ((2 : ℤ), (2 : ℤ)) := by
  have hu : (fireEntity (2, 2)).update (1 / 4) =
      { x := 4, y := 2, dx := 8, dy := 0, r := 0xFF, g := 0x00, b := 0x00 } := by
    simp only [fireEntity, Entity.update, Entity.mk.injEq]
    norm_num
  rw [hu]
  exact ⟨by decide, by decide⟩

/-- If the row lookup index is out of range, entity rendering is a no-op. -/
theorem renderEntity_out_of_rows (leds : List (List (Option Led))) (e : Entity)
    (h : leds.length ≤ usizeOfI32 e.pixel_position.2) : renderEntity leds e = leds := by
  have hget : leds.get? (usizeOfI32 e.pixel_position.2) = none := by
    rw [List.get?_eq_none]
    exact h
  simp only [renderEntity, hget]

/-- Claim C10: the retain step checks only the pixel column — an entity whose
pixel row is outside the grid's rows is kept whenever its column is in
`[0, max_col)`, the retain predicate is independent of `y`, and rendering
skips such an entity via bounds-checked lookup (after `as usize` sign
extension) without modifying the grid or failing. -/
theorem removal_ignores_row_render_safe :
    ∀ (max_col : ℕ) (entities : List Entity) (e : Entity)
      (leds : List (List (Option Led))),
      (0 ≤ e.pixel_position.1 → e.pixel_position.1 < (max_col : ℤ) → e ∈ entities →
        e ∈ offGridRetain max_col entities) ∧
      (∀ y : ℚ, ({ e with y := y } : Entity).pixel_position.1 = e.pixel_position.1) ∧
      ((leds.length : ℤ) ≤ e.pixel_position.2 → e.pixel_position.2 < 2 ^ 31 →
        renderEntity leds e = leds) ∧
      (e.pixel_position.2 < 0 → -(2 ^ 31) ≤ e.pixel_position.2 → leds.length ≤ 2 ^ 32 →
        renderEntity leds e = leds) := by
  intro m es e leds
  refine ⟨?_, fun y => rfl, ?_, ?_⟩
  · intro h1 h2 hmem
    have h : e ∈ es ∧ (0 ≤ e.pixel_position.1 ∧ e.pixel_position.1 < (m : ℤ)) :=
      ⟨hmem, h1, h2⟩
    simpa [offGridRetain, List.mem_filter, ge_iff_le] using h
  · intro hlen hlt
    apply renderEntity_out_of_rows
    norm_num [usizeOfI32] at hlt ⊢
    omega
  · intro hneg hlow hlen
    apply renderEntity_out_of_rows
    norm_num [usizeOfI32] at hlow hlen ⊢
    omega

/-- An entity on column 3 but on the out-of-grid row `-5`. -/
def entC10 : Entity := { x := 3, y := -5, dx := 0, dy := 0, r := 0, g := 0, b := 0 }

/-- Claim C10, witness: the row `-5` entity is retained by the off-grid step
(column 3 is in range) and rendering over the compiled grid leaves the grid
unchanged. -/
theorem removal_ignores_row_render_safe_witness :
    entC10 ∈ offGridRetain 15 [entC10] ∧
    renderEntity (buildLeds indicesTable) entC10 = buildLeds indicesTable :=
  ⟨(removal_ignores_row_render_safe 15 [entC10] entC10 []).1
      (by decide) (by decide) (by decide),
   (removal_ignores_row_render_safe 15 [entC10] entC10 (buildLeds indicesTable)).2.2.2
      (by decide) (by decide) (by decide)⟩

end LaunchSpace
